import Mathlib

/-!
Shallow embedding of the skew-compensation core of the
PrintSkewCompensation repository: the quarter-formula factors of
SkewCalculator.calculate_skew_factors (SkewCalculator.py), the geometric
post-processing factor calculate_skew_factor and the coordinate
compensator cura_compensation (scripts/PrintSkewCompensationCKM.py).

Python floats are modelled as exact rationals (reals for the
transcendental geometric formula); Python round(v, 3) is modelled as
round-half-to-even on the exact rational value.  The host G-code
parameter extraction (Script.getValue, a collaborator outside this
repository) is modelled by structured move lines carrying the extracted
optional X, Y, Z values.
-/

/-- Value held in a SkewCalculator measurement field: either a value that
the Python float() conversion turns into a number, or one whose
conversion fails with ValueError or TypeError. -/
inductive PyVal where
  | num (q : ℚ)
  | nonNum
deriving DecidableEq, Repr

/-- Python float() conversion on a stored measurement value: some number,
or none when the conversion raises. -/
def pyFloat : PyVal → Option ℚ
  | .num q => some q
  | .nonNum => none

/-- Per-plane body of SkewCalculator.calculate_skew_factors
(SkewCalculator.py lines 69-77, repeated verbatim for the XZ and YZ
planes): convert the three stored values with float(), raise (hence
return 0.0 through the except clause) when AD is not positive, otherwise
apply the quarter formula (AC^2 - BD^2) / (4 * AD^2).  A conversion
failure on any of the three values also lands in the except clause and
yields 0.0. -/
def planeFactor (ac bd ad : PyVal) : ℚ :=
  match pyFloat ac, pyFloat bd, pyFloat ad with
  | some AC, some BD, some AD =>
      if AD ≤ 0 then 0 else (AC ^ 2 - BD ^ 2) / (4 * AD ^ 2)
  | _, _, _ => 0

/-- State of a SkewCalculator object: the nine stored measurements and
the three Marlin factors. -/
structure SkewCalculator where
  xy_ac : PyVal
  xy_bd : PyVal
  xy_ad : PyVal
  xz_ac : PyVal
  xz_bd : PyVal
  xz_ad : PyVal
  yz_ac : PyVal
  yz_bd : PyVal
  yz_ad : PyVal
  marlin_I : ℚ
  marlin_J : ℚ
  marlin_K : ℚ
deriving DecidableEq, Repr

/-- SkewCalculator.calculate_skew_factors: recompute the three Marlin
factors from the nine stored measurements, one independent try block per
plane. -/
def calculate_skew_factors (s : SkewCalculator) : SkewCalculator :=
  { s with
    marlin_I := planeFactor s.xy_ac s.xy_bd s.xy_ad
    marlin_J := planeFactor s.xz_ac s.xz_bd s.xz_ad
    marlin_K := planeFactor s.yz_ac s.yz_bd s.yz_ad }

/-- The SkewCalculator constructor: default measurements 141.42 /
141.42 / 100.0 for each plane, zero factors, then an initial
calculate_skew_factors call. -/
def SkewCalculator.init : SkewCalculator :=
  calculate_skew_factors
    { xy_ac := .num 141.42
      xy_bd := .num 141.42
      xy_ad := .num 100
      xz_ac := .num 141.42
      xz_bd := .num 141.42
      xz_ad := .num 100
      yz_ac := .num 141.42
      yz_bd := .num 141.42
      yz_ad := .num 100
      marlin_I := 0
      marlin_J := 0
      marlin_K := 0 }

/-- SkewCalculator.set_measurements: store all nine measurements and
recompute the factors. -/
def set_measurements (s : SkewCalculator)
    (xy_ac xy_bd xy_ad xz_ac xz_bd xz_ad yz_ac yz_bd yz_ad : PyVal) :
    SkewCalculator :=
  calculate_skew_factors
    { s with
      xy_ac := xy_ac
      xy_bd := xy_bd
      xy_ad := xy_ad
      xz_ac := xz_ac
      xz_bd := xz_bd
      xz_ad := xz_ad
      yz_ac := yz_ac
      yz_bd := yz_bd
      yz_ad := yz_ad }

/-- SkewCalculator.get_skew_factors: return the stored factor triple. -/
def get_skew_factors (s : SkewCalculator) : ℚ × ℚ × ℚ :=
  (s.marlin_I, s.marlin_J, s.marlin_K)

/-- Round-half-to-even of a rational to an integer, the tie rule of the
Python round builtin. -/
def rndHalfEven (x : ℚ) : ℤ :=
  let f := ⌊x⌋
  let r := x - f
  if r < 1 / 2 then f
  else if 1 / 2 < r then f + 1
  else if f % 2 = 0 then f else f + 1

/-- Python round(v, 3) on the exact rational value. -/
def round3 (x : ℚ) : ℚ :=
  (rndHalfEven (x * 1000) : ℚ) / 1000

/-- Left-pad a string of digits with zeros to the given width. -/
def padZeros (w : ℕ) (s : String) : String :=
  (List.replicate (w - s.length) (Char.ofNat 48)).asString ++ s

/-- Python fixed-point formatting with 8 decimals, the .8f conversion
used by get_marlin_command, on the exact rational value. -/
def fmt8 (q : ℚ) : String :=
  let n := rndHalfEven (q * 100000000)
  let sign := if n < 0 then "-" else ""
  let a := n.natAbs
  sign ++ toString (a / 100000000) ++ "." ++ padZeros 8 (toString (a % 100000000))

/-- SkewCalculator.get_marlin_command: the M852 line built from the three
stored factors with 8-decimal formatting and the plugin tag comment. -/
def get_marlin_command (s : SkewCalculator) : String :=
  "M852 I" ++ fmt8 s.marlin_I ++ " J" ++ fmt8 s.marlin_J ++ " K" ++
    fmt8 s.marlin_K ++ " ; PrintSkewCompensation"

/-- The three skew factors the post-processing script applies, the
_calculated_factors dictionary of PrintSkewCompensationCKM. -/
structure Factors where
  xy : ℚ
  xz : ℚ
  yz : ℚ
deriving DecidableEq, Repr

/-- Parameters of one G0/G1 move line: the optional X, Y, Z values the
host getValue collaborator extracts from the line text. -/
structure MoveParams where
  x : Option ℚ
  y : Option ℚ
  z : Option ℚ
deriving DecidableEq, Repr

/-- One G-code line as the compensator sees it: a G0/G1 move line with
its extracted parameters, or any other line, which the compensator never
touches. -/
inductive GLine where
  | move (p : MoveParams)
  | other
deriving DecidableEq, Repr

/-- Processing of one line inside cura_compensation
(PrintSkewCompensationCKM.py lines 345-376): on a move line, take
x_input and y_input from the line (reset to 0 when absent), update the
cumulative z_input when the line has a Z, compute the two-step sheared
x_out and the sheared y_out with round(  , 3), and rewrite the X and Y
values only when the layer index is at least 2.  Returns the new
cumulative z and the resulting line. -/
def stepLine (fs : Factors) (layerIndex : ℕ) (zIn : ℚ) :
    GLine → ℚ × GLine
  | .other => (zIn, .other)
  | .move p =>
      let x_input := p.x.getD 0
      let y_input := p.y.getD 0
      let z_input := p.z.getD zIn
      let x_out := round3 (round3 (x_input - y_input * fs.xy) - z_input * fs.xz)
      let y_out := round3 (y_input - z_input * fs.yz)
      if layerIndex < 2 then (z_input, .move p)
      else
        (z_input,
          .move
            { x := p.x.map fun _ => x_out
              y := p.y.map fun _ => y_out
              z := p.z })

/-- Processing of the line list of one layer, threading the cumulative
z value left to right. -/
def stepLines (fs : Factors) (layerIndex : ℕ) (zIn : ℚ) :
    List GLine → ℚ × List GLine
  | [] => (zIn, [])
  | l :: ls =>
      let s1 := stepLine fs layerIndex zIn l
      let s2 := stepLines fs layerIndex s1.1 ls
      (s2.1, s1.2 :: s2.2)

/-- Processing of the layer list from a given layer index, threading the
cumulative z value across layer boundaries. -/
def compLayers (fs : Factors) (layerIndex : ℕ) (zIn : ℚ) :
    List (List GLine) → List (List GLine)
  | [] => []
  | layer :: rest =>
      let s := stepLines fs layerIndex zIn layer
      s.2 :: compLayers fs (layerIndex + 1) s.1 rest

/-- cura_compensation: process the whole document starting at layer
index 0 with cumulative z initialised to 0. -/
def cura_compensation (fs : Factors) (doc : List (List GLine)) :
    List (List GLine) :=
  compLayers fs 0 0 doc

/-- The shortest-repr rendering of a Python float that holds a value
rounded to 3 decimals: integer part, decimal point, then the up to three
fraction digits with trailing zeros removed but at least one digit kept.
This is what the f-string interpolation of x_out and y_out produces. -/
def fmtPy (q : ℚ) : String :=
  let n := rndHalfEven (q * 1000)
  let sign := if n < 0 then "-" else ""
  let a := n.natAbs
  let f := a % 1000
  let frac :=
    if f % 10 ≠ 0 then padZeros 3 (toString f)
    else if f % 100 ≠ 0 then padZeros 2 (toString (f / 10))
    else toString (f / 100)
  sign ++ toString (a / 1000) ++ "." ++ frac

/-- Modelled from the spec: the fixed three-decimal rendering that the
specification describes for rewritten coordinate tokens, with exactly 3
decimal digits always present. -/
def fmt3_spec (q : ℚ) : String :=
  let n := rndHalfEven (q * 1000)
  let sign := if n < 0 then "-" else ""
  let a := n.natAbs
  sign ++ toString (a / 1000) ++ "." ++ padZeros 3 (toString (a % 1000))

/-- The sheared X value of one move line: the two-step computation of
PrintSkewCompensationCKM.py lines 364-365 with the effective cumulative
z value. -/
def xOutVal (fs : Factors) (z x_input y_input : ℚ) : ℚ :=
  round3 (round3 (x_input - y_input * fs.xy) - z * fs.xz)

/-- The sheared Y value of one move line, PrintSkewCompensationCKM.py
line 366. -/
def yOutVal (fs : Factors) (z y_input : ℚ) : ℚ :=
  round3 (y_input - z * fs.yz)

/-- Replacement text written for the X token of a move line (line 374 of
PrintSkewCompensationCKM.py, the f-string interpolation of x_out),
present exactly when the line carries an X parameter. -/
def xToken (fs : Factors) (zIn : ℚ) (p : MoveParams) : Option String :=
  p.x.map fun _ =>
    "X" ++ fmtPy (xOutVal fs (p.z.getD zIn) (p.x.getD 0) (p.y.getD 0))

/-- Replacement text written for the Y token of a move line (line 376 of
PrintSkewCompensationCKM.py), present exactly when the line carries a Y
parameter. -/
def yToken (fs : Factors) (zIn : ℚ) (p : MoveParams) : Option String :=
  p.y.map fun _ =>
    "Y" ++ fmtPy (yOutVal fs (p.z.getD zIn) (p.y.getD 0))

/-- The persistent cursor state the specification describes: cumulative
X, Y and Z values that each persist across motion lines. -/
structure Cursor where
  x : ℚ
  y : ℚ
  z : ℚ
deriving DecidableEq, Repr

/-- Modelled from the spec: one-line processing under the Position State
wording of the specification, where the X and Y cursors also persist
across lines and an axis absent from a line keeps its last-seen value in
the shear computation. -/
def stepLineSpec (fs : Factors) (layerIndex : ℕ) (c : Cursor) :
    GLine → Cursor × GLine
  | .other => (c, .other)
  | .move p =>
      let x := p.x.getD c.x
      let y := p.y.getD c.y
      let z := p.z.getD c.z
      let x_out := round3 (round3 (x - y * fs.xy) - z * fs.xz)
      let y_out := round3 (y - z * fs.yz)
      if layerIndex < 2 then (⟨x, y, z⟩, .move p)
      else
        (⟨x, y, z⟩,
          .move
            { x := p.x.map fun _ => x_out
              y := p.y.map fun _ => y_out
              z := p.z })

/-- Modelled from the spec: layer-list processing under the persistent
cursor semantics. -/
def stepLinesSpec (fs : Factors) (layerIndex : ℕ) (c : Cursor) :
    List GLine → Cursor × List GLine
  | [] => (c, [])
  | l :: ls =>
      let s1 := stepLineSpec fs layerIndex c l
      let s2 := stepLinesSpec fs layerIndex s1.1 ls
      (s2.1, s1.2 :: s2.2)

/-- Modelled from the spec: document processing under the persistent
cursor semantics. -/
def compLayersSpec (fs : Factors) (layerIndex : ℕ) (c : Cursor) :
    List (List GLine) → List (List GLine)
  | [] => []
  | layer :: rest =>
      let s := stepLinesSpec fs layerIndex c layer
      s.2 :: compLayersSpec fs (layerIndex + 1) s.1 rest

/-- Modelled from the spec: the whole-document transform under the
persistent cursor semantics of the Position State paragraph. -/
def cura_compensation_spec (fs : Factors) (doc : List (List GLine)) :
    List (List GLine) :=
  compLayersSpec fs 0 ⟨0, 0, 0⟩ doc

open Classical in
/-- The geometric post-processing factor, calculate_skew_factor of
PrintSkewCompensationCKM.py lines 305-333, over exact reals: guard the
three measurements positive, guard the radicand nonnegative, guard the
acos denominator nonzero, reject (not clamp) an acos argument outside
the closed interval from -1 to 1, and otherwise return
tan(pi/2 - acos(arg)). -/
noncomputable def calculate_skew_factor (ac bd ad : ℝ) : ℝ :=
  if ac ≤ 0 ∨ bd ≤ 0 ∨ ad ≤ 0 then 0
  else
    let term_sqrt : ℝ := 2 * ac * ac + 2 * bd * bd - 4 * ad * ad
    if term_sqrt < 0 then 0
    else
      let ab : ℝ := Real.sqrt term_sqrt / 2
      let denominator_acos : ℝ := 2 * ab * ad
      if denominator_acos = 0 then 0
      else
        let arg_acos : ℝ := (ac * ac - ab * ab - ad * ad) / denominator_acos
        if ¬(-1 ≤ arg_acos ∧ arg_acos ≤ 1) then 0
        else Real.tan (Real.pi / 2 - Real.arccos arg_acos)

/-- Round-half-to-even of an integer value is that integer. -/
lemma rndHalfEven_intCast (n : ℤ) : rndHalfEven (n : ℚ) = n := by
  unfold rndHalfEven
  norm_num

/-- Rounding to 3 decimals is idempotent. -/
lemma round3_round3 (x : ℚ) : round3 (round3 x) = round3 x := by
  unfold round3
  rw [div_mul_cancel₀ _ (by norm_num : (1000 : ℚ) ≠ 0), rndHalfEven_intCast]

/-- C2: each plane of SkewCalculator.calculate_skew_factors yields
exactly 0.0 when the stored AD converts to a nonpositive float or when
any of the three stored values fails to convert, and otherwise yields
the quarter formula (AC^2 - BD^2) / (4 * AD^2); the per-plane results
land in the factor triple, and no exception escapes (the embedding is a
total function). -/
theorem calculate_skew_factors_quarter_spec :
    (∀ s : SkewCalculator,
       get_skew_factors (calculate_skew_factors s) =
         (planeFactor s.xy_ac s.xy_bd s.xy_ad,
          planeFactor s.xz_ac s.xz_bd s.xz_ad,
          planeFactor s.yz_ac s.yz_bd s.yz_ad)) ∧
    (∀ (ac bd ad : PyVal) (D : ℚ),
       pyFloat ad = some D → D ≤ 0 → planeFactor ac bd ad = 0) ∧
    (∀ ac bd ad : PyVal,
       pyFloat ac = none ∨ pyFloat bd = none ∨ pyFloat ad = none →
       planeFactor ac bd ad = 0) ∧
    (∀ (ac bd ad : PyVal) (A B D : ℚ),
       pyFloat ac = some A → pyFloat bd = some B → pyFloat ad = some D →
       0 < D →
       planeFactor ac bd ad = (A ^ 2 - B ^ 2) / (4 * D ^ 2)) := by
  refine ⟨fun s => rfl, ?_, ?_, ?_⟩
  · intro ac bd ad D had hle
    cases ac <;> cases bd <;> cases ad <;>
      simp_all [planeFactor, pyFloat]
  · intro ac bd ad h
    cases ac <;> cases bd <;> cases ad <;>
      simp_all [planeFactor, pyFloat]
  · intro ac bd ad A B D hac hbd had hpos
    cases ac <;> cases bd <;> cases ad <;>
      simp_all [planeFactor, pyFloat, not_le.mpr hpos]

/-- Witness for C2 at the concrete measurements 150, 130, 100. -/
theorem calculate_skew_factors_quarter_spec_witness :
    planeFactor (.num 150) (.num 130) (.num 100) =
      ((150 : ℚ) ^ 2 - 130 ^ 2) / (4 * 100 ^ 2) :=
  calculate_skew_factors_quarter_spec.2.2.2 _ _ _ 150 130 100 rfl rfl rfl
    (by norm_num)

/-- The calculator state after setting the scenario measurements of the
specification: XY plane 150 / 130 / 100, other planes at the ideal
defaults. -/
def scenarioCalculator : SkewCalculator :=
  set_measurements SkewCalculator.init
    (.num 150) (.num 130) (.num 100)
    (.num 141.42) (.num 141.42) (.num 100)
    (.num 141.42) (.num 141.42) (.num 100)

/-- C6 counterexample: for measurements 150 / 130 / 100 the quarter
formula gives (150^2 - 130^2) / (4 * 100^2) = 5600 / 40000 = 0.14, not
the 0.014 the claim states. -/
theorem scenario_150_130_100_not_0014 :
    scenarioCalculator.marlin_I ≠ (0.014 : ℚ) := by
  norm_num [scenarioCalculator, set_measurements, calculate_skew_factors,
    SkewCalculator.init, planeFactor, pyFloat]

/-- C6 amended: the quarter-formula factor for the scenario measurements
150 / 130 / 100 equals (150^2 - 130^2) / (4 * 100^2), and that value is
0.14. -/
theorem scenario_150_130_100_value :
    scenarioCalculator.marlin_I = ((150 : ℚ) ^ 2 - 130 ^ 2) / (4 * 100 ^ 2) ∧
    ((150 : ℚ) ^ 2 - 130 ^ 2) / (4 * 100 ^ 2) = (0.14 : ℚ) := by
  constructor <;>
    norm_num [scenarioCalculator, set_measurements, calculate_skew_factors,
      SkewCalculator.init, planeFactor, pyFloat]

/-- C10: after construction and after every set_measurements call the
stored factor triple is the per-plane quarter formula of the currently
stored measurements, so get_skew_factors and get_marlin_command always
reflect the most recently set measurements. -/
theorem skew_factor_invariant :
    (get_skew_factors SkewCalculator.init =
       (planeFactor (.num 141.42) (.num 141.42) (.num 100),
        planeFactor (.num 141.42) (.num 141.42) (.num 100),
        planeFactor (.num 141.42) (.num 141.42) (.num 100))) ∧
    (∀ (s : SkewCalculator) (a1 a2 a3 b1 b2 b3 c1 c2 c3 : PyVal),
       get_skew_factors (set_measurements s a1 a2 a3 b1 b2 b3 c1 c2 c3) =
           (planeFactor a1 a2 a3, planeFactor b1 b2 b3, planeFactor c1 c2 c3) ∧
       get_marlin_command (set_measurements s a1 a2 a3 b1 b2 b3 c1 c2 c3) =
           "M852 I" ++ fmt8 (planeFactor a1 a2 a3) ++
           " J" ++ fmt8 (planeFactor b1 b2 b3) ++
           " K" ++ fmt8 (planeFactor c1 c2 c3) ++
           " ; PrintSkewCompensation") :=
  ⟨rfl, fun _ _ _ _ _ _ _ _ _ _ => ⟨rfl, rfl⟩⟩

/-- A line processed in a layer of index 0 or 1 is returned unchanged. -/
lemma stepLine_snd_of_lt_two (fs : Factors) (li : ℕ) (z : ℚ) (l : GLine)
    (h : li < 2) : (stepLine fs li z l).2 = l := by
  cases l with
  | other => rfl
  | move p => simp [stepLine, h]

/-- A whole layer of index 0 or 1 is returned unchanged. -/
lemma stepLines_snd_of_lt_two (fs : Factors) (li : ℕ) (z : ℚ)
    (ls : List GLine) (h : li < 2) : (stepLines fs li z ls).2 = ls := by
  induction ls generalizing z with
  | nil => rfl
  | cons l ls ih => simp [stepLines, ih, stepLine_snd_of_lt_two fs li z l h]

/-- C3: inside cura_compensation every G0/G1 move line is rewritten with
x_out = round(x_input - y_input * factor_xy, 3) followed by
x_out = round(x_out - z * factor_xz, 3), both shears applied to X only,
and y_out = round(y_input - z * factor_yz, 3), where x_input and y_input
come from the line (0 when absent) and z is the cumulative value
possibly updated by the line. -/
theorem cura_shear_formula (fs : Factors) (li : ℕ) (z : ℚ)
    (p : MoveParams) (h : 2 ≤ li) :
    stepLine fs li z (GLine.move p) =
      (p.z.getD z,
       GLine.move
         { x := p.x.map fun _ =>
             round3 (round3 (p.x.getD 0 - p.y.getD 0 * fs.xy) -
               p.z.getD z * fs.xz)
           y := p.y.map fun _ =>
             round3 (p.y.getD 0 - p.z.getD z * fs.yz)
           z := p.z }) := by
  simp [stepLine, Nat.not_lt.mpr h]

/-- Witness for C3 at a concrete move line in layer 2. -/
theorem cura_shear_formula_witness :
    2 ≤ 2 ∧
    stepLine ⟨1, 1, 1⟩ 2 0 (GLine.move ⟨some 10, some 5, some 2⟩) =
      (2,
       GLine.move
         { x := some (round3 (round3 (10 - 5 * 1) - 2 * 1))
           y := some (round3 (5 - 2 * 1))
           z := some 2 }) :=
  ⟨le_refl 2, cura_shear_formula ⟨1, 1, 1⟩ 2 0 ⟨some 10, some 5, some 2⟩ (le_refl 2)⟩

/-- C4: cura_compensation leaves the layers of index 0 and 1 unchanged,
and a document of exactly 2 layers comes back equal to the input. -/
theorem first_two_layers_unchanged (fs : Factors) (doc : List (List GLine)) :
    (∀ i, i < 2 → (cura_compensation fs doc).get? i = doc.get? i) ∧
    (doc.length = 2 → cura_compensation fs doc = doc) := by
  constructor
  · intro i hi
    match doc, i with
    | [], _ => simp [cura_compensation, compLayers]
    | L :: rest, 0 =>
        simp [cura_compensation, compLayers,
          stepLines_snd_of_lt_two fs 0 0 L (by omega)]
    | [L], 1 => simp [cura_compensation, compLayers]
    | L1 :: L2 :: rest, 1 =>
        simp [cura_compensation, compLayers,
          stepLines_snd_of_lt_two fs 1 _ L2 (by omega)]
    | _, n + 2 => omega
  · intro hlen
    obtain ⟨a, b, rfl⟩ := List.length_eq_two.mp hlen
    simp [cura_compensation, compLayers,
      stepLines_snd_of_lt_two fs 0 0 a (by omega),
      stepLines_snd_of_lt_two fs 1 _ b (by omega)]

/-- Witness for C4 on a concrete 2-layer document. -/
theorem first_two_layers_unchanged_witness :
    ([[GLine.move ⟨some 1, some 2, some 3⟩], [GLine.other]] :
        List (List GLine)).length = 2 ∧
    cura_compensation ⟨1, 1, 1⟩
        [[GLine.move ⟨some 1, some 2, some 3⟩], [GLine.other]] =
      [[GLine.move ⟨some 1, some 2, some 3⟩], [GLine.other]] :=
  ⟨rfl,
   (first_two_layers_unchanged ⟨1, 1, 1⟩
       [[GLine.move ⟨some 1, some 2, some 3⟩], [GLine.other]]).2 rfl⟩

/-- A line carries no Z token: a move without a Z parameter or a
non-move line. -/
def zFree : GLine → Bool
  | .move p => p.z.isNone
  | .other => true

/-- The cumulative z after one line: unchanged unless the line is a move
with a Z parameter, in which case it becomes that value. -/
lemma stepLine_fst (fs : Factors) (li : ℕ) (z : ℚ) :
    (∀ p : MoveParams, (stepLine fs li z (GLine.move p)).1 = p.z.getD z) ∧
    (stepLine fs li z GLine.other).1 = z := by
  refine ⟨fun p => ?_, rfl⟩
  simp only [stepLine]
  split <;> rfl

/-- Over a run of Z-free lines the cumulative z never changes and every
line is processed with that same z. -/
lemma stepLines_zfree (fs : Factors) (li : ℕ) (z : ℚ) (ls : List GLine)
    (h : ∀ l ∈ ls, zFree l = true) :
    stepLines fs li z ls = (z, ls.map fun l => (stepLine fs li z l).2) := by
  induction ls with
  | nil => rfl
  | cons l ls ih =>
      have hl : zFree l = true := h l (List.mem_cons_self l ls)
      have hfst : (stepLine fs li z l).1 = z := by
        cases l with
        | other => rfl
        | move p =>
            cases hp : p.z with
            | none => simp [(stepLine_fst fs li z).1, hp]
            | some v => simp [zFree, hp] at hl
      simp [stepLines, hfst, ih fun l hm => h l (List.mem_cons_of_mem _ hm)]

/-- C5: when the first move of a run supplies Z10 and no later line of
the run has a Z token, the cumulative z becomes 10 and every later line
of the run is processed with z = 10; the cumulative z also threads
unchanged through layer boundaries, and on each move line the x and y
inputs are taken from that line alone, 0 when absent, never from earlier
lines. -/
theorem z_persists_across_lines :
    (∀ (fs : Factors) (li : ℕ) (z : ℚ) (p : MoveParams) (rest : List GLine),
       p.z = some 10 → (∀ l ∈ rest, zFree l = true) →
       stepLines fs li z (GLine.move p :: rest) =
         (10, (stepLine fs li z (GLine.move p)).2 ::
           rest.map fun l => (stepLine fs li 10 l).2)) ∧
    (∀ (fs : Factors) (li : ℕ) (z : ℚ) (L : List GLine)
       (rest : List (List GLine)),
       compLayers fs li z (L :: rest) =
         (stepLines fs li z L).2 ::
           compLayers fs (li + 1) (stepLines fs li z L).1 rest) ∧
    (∀ (fs : Factors) (li : ℕ) (z : ℚ) (p : MoveParams), 2 ≤ li →
       (stepLine fs li z (GLine.move p)).2 =
         GLine.move
           { x := p.x.map fun _ =>
               round3 (round3 (p.x.getD 0 - p.y.getD 0 * fs.xy) -
                 p.z.getD z * fs.xz)
             y := p.y.map fun _ =>
               round3 (p.y.getD 0 - p.z.getD z * fs.yz)
             z := p.z }) := by
  refine ⟨fun fs li z p rest hp hrest => ?_, fun fs li z L rest => rfl,
    fun fs li z p h => ?_⟩
  · have hfst : (stepLine fs li z (GLine.move p)).1 = 10 := by
      simp [(stepLine_fst fs li z).1, hp]
    simp [stepLines, hfst, stepLines_zfree fs li 10 rest hrest]
  · simp [stepLine, Nat.not_lt.mpr h]

/-- Witness for C5: a concrete run where only the first move carries
Z10. -/
theorem z_persists_across_lines_witness :
    (some (10 : ℚ) = some 10 ∧
      (∀ l ∈ [GLine.move ⟨some 2, none, none⟩], zFree l = true)) ∧
    stepLines ⟨1, 1, 1⟩ 2 0
        (GLine.move ⟨some 1, none, some 10⟩ ::
          [GLine.move ⟨some 2, none, none⟩]) =
      (10, (stepLine ⟨1, 1, 1⟩ 2 0 (GLine.move ⟨some 1, none, some 10⟩)).2 ::
        [GLine.move ⟨some 2, none, none⟩].map fun l =>
          (stepLine ⟨1, 1, 1⟩ 2 10 l).2) :=
  ⟨⟨rfl, by decide⟩,
   z_persists_across_lines.1 ⟨1, 1, 1⟩ 2 0 ⟨some 1, none, some 10⟩
     [GLine.move ⟨some 2, none, none⟩] rfl (by decide)⟩

/-- C7 counterexample: on a document whose layer 2 first moves with only
Y5 and then with only X10, with factor_xy = 1, the code leaves the
second X at 10 (its y_input resets to 0), while the persistent-cursor
semantics the claim describes would shear it with the remembered y = 5
to 5; so the X and Y cursors of the code are not cumulative. -/
theorem cursor_persistence_counterexample :
    cura_compensation ⟨1, 0, 0⟩
        [[], [], [GLine.move ⟨none, some 5, none⟩,
                  GLine.move ⟨some 10, none, none⟩]] =
      [[], [], [GLine.move ⟨none, some 5, none⟩,
                GLine.move ⟨some 10, none, none⟩]] ∧
    cura_compensation_spec ⟨1, 0, 0⟩
        [[], [], [GLine.move ⟨none, some 5, none⟩,
                  GLine.move ⟨some 10, none, none⟩]] =
      [[], [], [GLine.move ⟨none, some 5, none⟩,
                GLine.move ⟨some 5, none, none⟩]] ∧
    cura_compensation ⟨1, 0, 0⟩
        [[], [], [GLine.move ⟨none, some 5, none⟩,
                  GLine.move ⟨some 10, none, none⟩]] ≠
      cura_compensation_spec ⟨1, 0, 0⟩
        [[], [], [GLine.move ⟨none, some 5, none⟩,
                  GLine.move ⟨some 10, none, none⟩]] := by
  refine ⟨?_, ?_, ?_⟩ <;>
    norm_num [cura_compensation, compLayers, stepLines, stepLine,
      cura_compensation_spec, compLayersSpec, stepLinesSpec, stepLineSpec,
      round3, rndHalfEven]

/-- C7 amended: only the Z cursor is cumulative, updated exactly when a
move line supplies Z and left alone by every other line; the X and Y
inputs of a move are taken from that line alone and fall back to 0, not
to a remembered value, when the axis is absent. -/
theorem only_z_cursor_persists (fs : Factors) (li : ℕ) (z : ℚ)
    (p : MoveParams) (h : 2 ≤ li) :
    (stepLine fs li z (GLine.move p)).1 = p.z.getD z ∧
    (stepLine fs li z GLine.other).1 = z ∧
    (stepLine fs li z GLine.other).2 = GLine.other ∧
    (stepLine fs li z (GLine.move p)).2 =
      GLine.move
        { x := p.x.map fun _ =>
            xOutVal fs (p.z.getD z) (p.x.getD 0) (p.y.getD 0)
          y := p.y.map fun _ => yOutVal fs (p.z.getD z) (p.y.getD 0)
          z := p.z } := by
  refine ⟨(stepLine_fst fs li z).1 p, rfl, rfl, ?_⟩
  simp [stepLine, Nat.not_lt.mpr h, xOutVal, yOutVal]

/-- Witness for C7 amended at a concrete move line. -/
theorem only_z_cursor_persists_witness :
    2 ≤ 3 ∧
    ((stepLine ⟨1, 1, 1⟩ 3 7 (GLine.move ⟨some 10, none, none⟩)).1 = 7 ∧
     (stepLine ⟨1, 1, 1⟩ 3 7 (GLine.move ⟨some 10, none, none⟩)).2 =
       GLine.move
         { x := some (xOutVal ⟨1, 1, 1⟩ 7 10 0)
           y := none
           z := none }) :=
  ⟨by omega,
   ⟨(only_z_cursor_persists ⟨1, 1, 1⟩ 3 7 ⟨some 10, none, none⟩ (by omega)).1,
    (only_z_cursor_persists ⟨1, 1, 1⟩ 3 7 ⟨some 10, none, none⟩ (by omega)).2.2.2⟩⟩

/-- C8 counterexample: at a move line X5 in a layer of index 2 with all
factors zero, the text written for the X token is X5.0, the shortest
float repr of the rounded value, and not the X5.000 that the fixed
three-decimal format of the claim would give. -/
theorem token_format_counterexample :
    xToken ⟨0, 0, 0⟩ 0 ⟨some 5, none, none⟩ = some "X5.0" ∧
    "X" ++ fmt3_spec (xOutVal ⟨0, 0, 0⟩ 0 5 0) = "X5.000" ∧
    xToken ⟨0, 0, 0⟩ 0 ⟨some 5, none, none⟩ ≠
      some ("X" ++ fmt3_spec (xOutVal ⟨0, 0, 0⟩ 0 5 0)) := by
  refine ⟨?_, ?_, ?_⟩ <;>
    norm_num [xToken, fmtPy, fmt3_spec, xOutVal, round3, rndHalfEven,
      padZeros] <;> decide

/-- C8 amended: for layers of index at least 2, each move line keeps its
Z parameter and non-move lines are untouched; an X or Y token present on
the line is replaced by the corrected value rendered as the shortest
float repr of the 3-decimal rounding (trailing zeros removed, at least
one decimal digit), not padded to exactly 3 decimal digits. -/
theorem token_rewrite_spec (fs : Factors) (li : ℕ) (z : ℚ)
    (p : MoveParams) (h : 2 ≤ li) :
    (stepLine fs li z GLine.other).2 = GLine.other ∧
    (stepLine fs li z (GLine.move p)).2 =
      GLine.move
        { x := p.x.map fun _ =>
            xOutVal fs (p.z.getD z) (p.x.getD 0) (p.y.getD 0)
          y := p.y.map fun _ => yOutVal fs (p.z.getD z) (p.y.getD 0)
          z := p.z } ∧
    xToken fs z p =
      p.x.map (fun _ =>
        "X" ++ fmtPy (xOutVal fs (p.z.getD z) (p.x.getD 0) (p.y.getD 0))) ∧
    yToken fs z p =
      p.y.map (fun _ => "Y" ++ fmtPy (yOutVal fs (p.z.getD z) (p.y.getD 0))) := by
  refine ⟨rfl, ?_, rfl, rfl⟩
  simp [stepLine, Nat.not_lt.mpr h, xOutVal, yOutVal]

/-- Witness for C8 amended at a concrete move line in layer 2. -/
theorem token_rewrite_spec_witness :
    2 ≤ 2 ∧
    xToken ⟨0, 0, 0⟩ 0 ⟨some 5, some 3, none⟩ =
      (some 5).map (fun _ => "X" ++ fmtPy (xOutVal ⟨0, 0, 0⟩ 0 5 3)) :=
  ⟨le_refl 2,
   by
     have h :=
       (token_rewrite_spec ⟨0, 0, 0⟩ 2 0 ⟨some 5, some 3, none⟩
         (le_refl 2)).2.2.1
     exact h⟩

/-- The value-level effect the zero-factor transform has on one line:
move values rounded to 3 decimals, everything else untouched. -/
def zeroRound : GLine → GLine
  | .move p => .move { x := p.x.map round3, y := p.y.map round3, z := p.z }
  | .other => .other

/-- With all three factors zero a rewritten move line carries exactly the
3-decimal roundings of its own values. -/
lemma stepLine_zero (li : ℕ) (z : ℚ) (l : GLine) (h : 2 ≤ li) :
    (stepLine ⟨0, 0, 0⟩ li z l).2 = zeroRound l := by
  cases l with
  | other => rfl
  | move p =>
      cases p with
      | mk px py pz =>
          cases px <;> cases py <;>
            simp [stepLine, zeroRound, Nat.not_lt.mpr h, round3_round3]

/-- With all three factors zero a whole rewritten layer is the pointwise
3-decimal rounding of its move values. -/
lemma stepLines_zero (li : ℕ) (z : ℚ) (ls : List GLine) (h : 2 ≤ li) :
    (stepLines ⟨0, 0, 0⟩ li z ls).2 = ls.map zeroRound := by
  induction ls generalizing z with
  | nil => rfl
  | cons l ls ih => simp [stepLines, ih, stepLine_zero li _ l h]

/-- Layer lookup through the zero-factor transform: every layer whose
absolute index is at least 2 maps to its pointwise rounding. -/
lemma compLayers_zero_get? (doc : List (List GLine)) (li : ℕ) (z : ℚ)
    (i : ℕ) (h : 2 ≤ li + i) :
    (compLayers ⟨0, 0, 0⟩ li z doc).get? i =
      (doc.get? i).map (List.map zeroRound) := by
  induction doc generalizing li z i with
  | nil => simp [compLayers]
  | cons L rest ih =>
      cases i with
      | zero =>
          simp only [compLayers, List.get?_cons_zero]
          rw [stepLines_zero li z L (by omega)]
          rfl
      | succ j =>
          simp only [compLayers, List.get?_cons_succ]
          exact ih _ _ j (by omega)

/-- C9: with all three skew factors 0.0, for every layer of index at
least 2 the output of cura_compensation is the input layer with each
move value replaced by its 3-decimal rounding: the transform is a
value-level no-op up to rounding. -/
theorem zero_factors_roundtrip (doc : List (List GLine)) (i : ℕ)
    (layer : List GLine) (h : 2 ≤ i) (hget : doc.get? i = some layer) :
    (cura_compensation ⟨0, 0, 0⟩ doc).get? i = some (layer.map zeroRound) := by
  unfold cura_compensation
  rw [compLayers_zero_get? doc 0 0 i (by omega), hget]
  rfl

/-- Witness for C9 on a concrete 3-layer document. -/
theorem zero_factors_roundtrip_witness :
    2 ≤ 2 ∧
    ([[], [], [GLine.move ⟨some (12345/10000), some 2, some 3⟩]] :
        List (List GLine)).get? 2 =
      some [GLine.move ⟨some (12345/10000), some 2, some 3⟩] ∧
    (cura_compensation ⟨0, 0, 0⟩
        [[], [], [GLine.move ⟨some (12345/10000), some 2, some 3⟩]]).get? 2 =
      some ([GLine.move ⟨some (12345/10000), some 2, some 3⟩].map zeroRound) :=
  ⟨le_refl 2, rfl,
   zero_factors_roundtrip
     [[], [], [GLine.move ⟨some (12345/10000), some 2, some 3⟩]] 2
     [GLine.move ⟨some (12345/10000), some 2, some 3⟩] (le_refl 2) rfl⟩

open Classical in
/-- C1: the geometric plane factor is exactly 0 when any measurement is
nonpositive, or the radicand 2 ac^2 + 2 bd^2 - 4 ad^2 is negative, or
2 ab ad = 0 with ab the half square root of the radicand, or the acos
argument (ac^2 - ab^2 - ad^2) / (2 ab ad) falls outside the closed
interval from -1 to 1 (rejected, not clamped); otherwise it is
tan(pi/2 - arccos of that argument). -/
theorem calculate_skew_factor_cases (ac bd ad : ℝ) :
    calculate_skew_factor ac bd ad =
      if (ac ≤ 0 ∨ bd ≤ 0 ∨ ad ≤ 0) ∨
         2 * ac * ac + 2 * bd * bd - 4 * ad * ad < 0 ∨
         2 * (Real.sqrt (2 * ac * ac + 2 * bd * bd - 4 * ad * ad) / 2) * ad = 0 ∨
         ¬(-1 ≤ (ac * ac -
              Real.sqrt (2 * ac * ac + 2 * bd * bd - 4 * ad * ad) / 2 *
                (Real.sqrt (2 * ac * ac + 2 * bd * bd - 4 * ad * ad) / 2) -
              ad * ad) /
            (2 * (Real.sqrt (2 * ac * ac + 2 * bd * bd - 4 * ad * ad) / 2) * ad) ∧
           (ac * ac -
              Real.sqrt (2 * ac * ac + 2 * bd * bd - 4 * ad * ad) / 2 *
                (Real.sqrt (2 * ac * ac + 2 * bd * bd - 4 * ad * ad) / 2) -
              ad * ad) /
            (2 * (Real.sqrt (2 * ac * ac + 2 * bd * bd - 4 * ad * ad) / 2) * ad) ≤ 1)
      then 0
      else
        Real.tan (Real.pi / 2 - Real.arccos
          ((ac * ac -
              Real.sqrt (2 * ac * ac + 2 * bd * bd - 4 * ad * ad) / 2 *
                (Real.sqrt (2 * ac * ac + 2 * bd * bd - 4 * ad * ad) / 2) -
              ad * ad) /
            (2 * (Real.sqrt (2 * ac * ac + 2 * bd * bd - 4 * ad * ad) / 2) * ad))) := by
  simp only [calculate_skew_factor]
  split_ifs <;> first | rfl | tauto
